import Mathlib

/-!
Shallow embedding of the `sse` server-sent-events broker library
(packages `client` and `broker`), together with theorems checking the
natural-language specification against the code.

Modelling conventions:
* Go `int` fields become `Int`; `time.Duration` becomes an `Int`
  (nanoseconds); its numeric value never influences the control flow
  modelled here.
* The registry (`sync.Map`) becomes an association list
  `List (String × RegValue)`; the broker only ever uses atomic
  `Load` / `Store` / `Delete` / `Range`, which we model directly.
  `RegValue.malformed` stands for a stored value whose type assertion
  to `*client.Client` fails.
* A channel hand-off in `Client.Write` succeeds or times out depending
  on whether a consumer is receiving; this is external to the function,
  so `write` takes the outcome of the `select` race as a `Bool`
  argument (`true` = the receive completed before the timer fired).
* The random identifier produced by `xid.New().String()` is passed in
  as an explicit `generated` argument.
* A Go nil-pointer dereference (calling a method on the nil result of a
  failed type assertion) is modelled as an explicit `panic` outcome
  carrying the state at the moment of the crash.
-/

namespace SSE

/-- The `client.Client` struct from the `client` package. -/
structure Client where
  id : String
  timeout : Int
  failures : Int
  tolerance : Int
  deriving Repr, DecidableEq

/-- Error message produced by `Client.Write` on timeout:
`fmt.Errorf("failed to write to client %v, timeout exceeded", c.id)`. -/
def writeTimeoutMsg (id : String) : String :=
  "failed to write to client " ++ id ++ ", timeout exceeded"

/-- Model of `client.New(timeout, tolerance, id)`: if `id` is blank the
generated random identifier is used instead; `failures` starts at 0. -/
def Client.new (timeout tolerance : Int) (id generated : String) : Client :=
  { id := if id = "" then generated else id
    timeout := timeout
    failures := 0
    tolerance := tolerance }

/-- Model of `(*Client).Write(data)`: races the channel send against the timer.
`delivered` is the outcome of the `select`: `true` means the send
completed (failures reset to 0, nil error), `false` means the timer
fired first (failures incremented, timeout error). -/
def Client.write (c : Client) (delivered : Bool) : Client × Option String :=
  if delivered then
    ({ c with failures := 0 }, none)
  else
    ({ c with failures := c.failures + 1 }, some (writeTimeoutMsg c.id))

/-- Model of `(*Client).ShouldDisconnect()`: `c.failures >= c.tolerance`. -/
def Client.shouldDisconnect (c : Client) : Bool :=
  c.tolerance ≤ c.failures

/-- A sequence of `Write` calls, one per element of `outcomes`
(each element the outcome of that call's `select` race). -/
def Client.writeSeq (c : Client) : List Bool → Client
  | [] => c
  | b :: rest => ((c.write b).1).writeSeq rest

/-- A value stored in the broker's `sync.Map`: either a genuine
`*client.Client`, or something whose type assertion fails. -/
inductive RegValue where
  | conn : Client → RegValue
  | malformed : RegValue
  deriving Repr, DecidableEq

/-- The broker's registry: the contents of `b.clients`. -/
abbrev Registry := List (String × RegValue)

/-- Model of `sync.Map.Load`. -/
def load : Registry → String → Option RegValue
  | [], _ => none
  | p :: rest, k => if p.1 = k then some p.2 else load rest k

/-- Model of `sync.Map.Store`: replaces the value when the key is present,
otherwise adds an entry. -/
def store (m : Registry) (k : String) (v : RegValue) : Registry :=
  match m with
  | [] => [(k, v)]
  | p :: rest => if p.1 = k then (k, v) :: rest else p :: store rest k v

/-- Model of `sync.Map.Delete`. -/
def delete : Registry → String → Registry
  | [], _ => []
  | p :: rest, k => if p.1 = k then delete rest k else p :: delete rest k

/-- Model of `(*defaultBroker).hasClient(id)`. -/
def hasClient (m : Registry) (id : String) : Bool :=
  (load m id).isSome

/-- The keys of the registry, in entry order. -/
def keys (m : Registry) : List String :=
  m.map (fun p => p.1)

/-- Error message for a missing unicast target:
`fmt.Errorf("no client with id %v exists", id)`. -/
def unknownClientMsg (id : String) : String :=
  "no client with id " ++ id ++ " exists"

/-- Error message for a malformed entry found by `BroadcastTo`:
`errors.New("client is malformed, disconnecting")`. -/
def malformedUnicastMsg : String :=
  "client is malformed, disconnecting"

/-- Error message for a malformed entry found by `Broadcast`:
`fmt.Errorf("found malformed client with id %v, disconnecting", key)`. -/
def malformedBroadcastMsg (key : String) : String :=
  "found malformed client with id " ++ key ++ ", disconnecting"

/-- Model of `(*defaultBroker).BroadcastTo(id, data)`.  Returns the registry
after the call and the error (`none` = nil).  `delivered` is the
outcome of the inner `Client.Write` select race, used only when a
well-formed client is found. -/
def broadcastTo (m : Registry) (id : String) (delivered : Bool) :
    Registry × Option String :=
  match load m id with
  | none => (m, some (unknownClientMsg id))
  | some RegValue.malformed => (delete m id, some malformedUnicastMsg)
  | some (RegValue.conn c) =>
      let r := c.write delivered
      (store m id (RegValue.conn r.1), r.2)

/-- Outcome of a `Broadcast` call: either the `Range` loop ran to
completion (`done`: final registry, returned error), or the body
dereferenced the nil result of a failed type assertion and panicked
(`panic`: the error strings accumulated so far and the registry at the
moment of the crash). -/
inductive BroadcastOutcome where
  | done : Registry → Option String → BroadcastOutcome
  | panic : List String → Registry → BroadcastOutcome
  deriving Repr, DecidableEq

/-- Model of `if len(out) > 0 { return errors.New(strings.Join(out, "\n")) }
return nil`. -/
def joinErrors (out : List String) : Option String :=
  if out.isEmpty then none else some (String.intercalate "\n" out)

/-- The body of the `Range` callback in `(*defaultBroker).Broadcast`,
iterated over the snapshot of entries the `Range` traverses.
`entries` is that snapshot, `m` the current registry, `out` the error
strings accumulated so far, and `deliver k` the outcome of the select
race for the write to the client stored at key `k`.

When the type assertion fails the code appends an error and deletes the
key but does not return from the callback: it falls through to
`client.Write(data)` with `client == nil`, which panics. -/
def broadcastGo (deliver : String → Bool) :
    List (String × RegValue) → Registry → List String → BroadcastOutcome
  | [], m, out => BroadcastOutcome.done m (joinErrors out)
  | (k, RegValue.malformed) :: _, m, out =>
      BroadcastOutcome.panic (out ++ [malformedBroadcastMsg k]) (delete m k)
  | (k, RegValue.conn c) :: rest, m, out =>
      let r := c.write (deliver k)
      match r.2 with
      | none => broadcastGo deliver rest (store m k (RegValue.conn r.1)) out
      | some msg =>
          let m1 := store m k (RegValue.conn r.1)
          let m2 := if r.1.shouldDisconnect then delete m1 c.id else m1
          broadcastGo deliver rest m2 (out ++ [msg])

/-- Model of `(*defaultBroker).Broadcast(data)`: ranges over the registry as it
stands when the call begins. -/
def broadcast (m : Registry) (deliver : String → Bool) : BroadcastOutcome :=
  broadcastGo deliver m m []

/-- The capabilities of the `http.ResponseWriter` handed to
`ClientHandler`: whether it implements `http.Flusher` and whether it
implements `http.CloseNotifier`. -/
structure Capabilities where
  flusher : Bool
  closeNotifier : Bool
  deriving Repr, DecidableEq

/-- Error message for the failed capability check:
`errors.New("client does not support streaming")`. -/
def streamingUnsupportedMsg : String :=
  "client does not support streaming"

/-- Error message for an identifier collision:
`fmt.Errorf("a client with id %v already exists", id)`. -/
def duplicateClientMsg (id : String) : String :=
  "a client with id " ++ id ++ " already exists"

/-- How `(*defaultBroker).ClientHandler` leaves the registry before its
main loop: either `httpError` was invoked with the given message and the
handler returned without registering anything, or a client with the
given id was registered and the main loop was entered. -/
inductive HandlerStart where
  | errored : String → Registry → HandlerStart
  | started : String → Registry → HandlerStart
  deriving Repr, DecidableEq

/-- The registration phase of `(*defaultBroker).ClientHandler`.

The code reads
`flusher, ok := w.(http.Flusher); notify, ok := w.(http.CloseNotifier)`
and then tests the single variable `ok`, whose value from the first
assertion has been overwritten by the second: only the `CloseNotifier`
assertion is ever checked. -/
def clientHandlerStart (m : Registry) (caps : Capabilities)
    (timeout tolerance : Int) (queryId generated : String) : HandlerStart :=
  if !caps.closeNotifier then
    HandlerStart.errored streamingUnsupportedMsg m
  else
    let c := Client.new timeout tolerance queryId generated
    if hasClient m c.id then
      HandlerStart.errored (duplicateClientMsg c.id) m
    else
      HandlerStart.started c.id (store m c.id (RegValue.conn c))

/-- One iteration of the main loop of `ClientHandler`: the `select`
either received a payload from `client.Listen()` or the
`time.Tick(b.timeout)` case fired. -/
inductive LoopEvent where
  | payload : String → LoopEvent
  | tick : LoopEvent
  deriving Repr, DecidableEq

/-- An action performed on the `http.ResponseWriter` by the main loop. -/
inductive Transport where
  | write : String → Transport
  | flush : Transport
  deriving Repr, DecidableEq

/-- The bytes `fmt.Fprintf(w, "data: %s\n\n", data)` writes for one
payload. -/
def frame (data : String) : String :=
  "data: " ++ data ++ "\n\n"

/-- The transport actions performed by the main loop of
`ClientHandler` for a given (finite) schedule of select outcomes: a
payload case writes its event frame and flushes, a tick case does
nothing and loops. -/
def handlerLoopTrace : List LoopEvent → List Transport
  | [] => []
  | LoopEvent.payload d :: rest =>
      Transport.write (frame d) :: Transport.flush :: handlerLoopTrace rest
  | LoopEvent.tick :: rest => handlerLoopTrace rest

/-- The payloads received from the queue in a schedule, in order. -/
def payloadsOf : List LoopEvent → List String
  | [] => []
  | LoopEvent.payload d :: rest => d :: payloadsOf rest
  | LoopEvent.tick :: rest => payloadsOf rest

/-- Which broadcast operation `(*defaultBroker).EventHandler` invokes. -/
inductive Dispatch where
  | broadcast : Dispatch
  | broadcastTo : String → Dispatch
  deriving Repr, DecidableEq

/-- Model of `r.URL.Query().Get("id")`: the first value of the parameter when it
is present, and the empty string when it is absent. -/
def queryGet (q : Option String) : String :=
  match q with
  | none => ""
  | some s => s

/-- The dispatch decision of `(*defaultBroker).EventHandler` once the
body has been read:
`if id != "" { b.BroadcastTo(id, data) } else { b.Broadcast(data) }`. -/
def eventHandlerDispatch (q : Option String) : Dispatch :=
  let id := queryGet q
  if id ≠ "" then Dispatch.broadcastTo id else Dispatch.broadcast

/-- An operation mutating the registry, as performed by the broker's
public entry points.  `connect` is the registration phase of
`ClientHandler`; `disconnect` is `removeClient` as invoked by the close
listener or the handler's deferred cleanup. -/
inductive Op where
  | connect : Capabilities → Int → Int → String → String → Op
  | disconnect : String → Op
  | bcast : (String → Bool) → Op
  | bcastTo : String → Bool → Op

/-- The registry left behind by a `HandlerStart`. -/
def startReg : HandlerStart → Registry
  | HandlerStart.errored _ m => m
  | HandlerStart.started _ m => m

/-- The registry left behind by a `BroadcastOutcome` (for a panic, the
registry at the moment of the crash). -/
def outReg : BroadcastOutcome → Registry
  | BroadcastOutcome.done m _ => m
  | BroadcastOutcome.panic _ m => m

/-- The effect of one broker operation on the registry. -/
def applyOp (m : Registry) : Op → Registry
  | Op.connect caps t tol qid g => startReg (clientHandlerStart m caps t tol qid g)
  | Op.disconnect id => delete m id
  | Op.bcast deliver => outReg (broadcast m deliver)
  | Op.bcastTo id d => (broadcastTo m id d).1

/-- The registry reached from the empty registry a fresh broker starts
with (`clients: &sync.Map{}`) by a sequence of broker operations. -/
def reach (ops : List Op) : Registry :=
  ops.foldl applyOp []

/-- Spec-side description of a broadcast's individual failure messages:
one message per registered connection whose delivery fails, in
iteration order. -/
def failMsgs (deliver : String → Bool) : List (String × RegValue) → List String
  | [] => []
  | (k, RegValue.conn c) :: rest =>
      if deliver k then failMsgs deliver rest
      else writeTimeoutMsg c.id :: failMsgs deliver rest
  | (_, RegValue.malformed) :: rest => failMsgs deliver rest

/-- Spec-side measure for the tolerance predicate: how many `Write`
calls at the end of the sequence have timed out consecutively, with no
intervening success. -/
def consecFailures (outcomes : List Bool) : Int :=
  ((outcomes.reverse.takeWhile (fun b => !b)).length : Int)

/-- A registry entry is good when it stores a genuine client under that
client's own identifier. -/
def goodPair (p : String × RegValue) : Prop :=
  ∃ c, p.2 = RegValue.conn c ∧ p.1 = c.id

/-- Every entry of the registry is good. -/
def goodReg (m : Registry) : Prop :=
  ∀ p ∈ m, goodPair p

theorem write_fst_id (c : Client) (b : Bool) : ((c.write b).1).id = c.id := by
  cases b <;> rfl

theorem write_fst_tolerance (c : Client) (b : Bool) :
    ((c.write b).1).tolerance = c.tolerance := by
  cases b <;> rfl

theorem writeSeq_append (c : Client) (l1 l2 : List Bool) :
    c.writeSeq (l1 ++ l2) = (c.writeSeq l1).writeSeq l2 := by
  induction l1 generalizing c with
  | nil => rfl
  | cons b rest ih => simp [Client.writeSeq, ih]

theorem writeSeq_tolerance (c : Client) (l : List Bool) :
    (c.writeSeq l).tolerance = c.tolerance := by
  induction l generalizing c with
  | nil => rfl
  | cons b rest ih => rw [Client.writeSeq, ih, write_fst_tolerance]

theorem writeSeq_failures_fresh (t tol : Int) (qid g : String) (l : List Bool) :
    ((Client.new t tol qid g).writeSeq l).failures = consecFailures l := by
  induction l using List.reverseRecOn with
  | nil => rfl
  | append_singleton l b ih =>
      rw [writeSeq_append]
      cases b
      · rw [Client.writeSeq, Client.writeSeq]
        simp only [Client.write, Bool.false_eq_true, if_false]
        rw [ih]
        simp [consecFailures, List.takeWhile]
      · rw [Client.writeSeq, Client.writeSeq]
        simp only [Client.write, if_true]
        simp [consecFailures, List.takeWhile]

/-- Claim C5: for every payload, `Client.Write` either hands the payload
off (resetting the failure counter to 0 and returning nil) or times out
(incrementing the failure counter and returning the delivery-timeout
error naming the connection); there is no third outcome, no partial
delivery and no internal retry. -/
theorem write_delivers_or_times_out (c : Client) (d : Bool) :
    c.write d = ({ c with failures := 0 }, none) ∨
    c.write d = ({ c with failures := c.failures + 1 },
                 some (writeTimeoutMsg c.id)) := by
  cases d
  · right; rfl
  · left; rfl

/-- Claim C4 counterexample: the claim quantifies over every tolerance,
but with tolerance 0 `ShouldDisconnect` is already true immediately
after creation (`failures >= tolerance` is `0 >= 0`). -/
theorem shouldDisconnect_true_at_creation :
    (Client.new 5 0 "a" "g").shouldDisconnect = true := by decide

/-- Claim C4 (amended to tolerance ≥ 1): `ShouldDisconnect` is false
immediately after creation and after any successful `Write`, and after
any sequence of writes it is true exactly when at least `tolerance`
consecutive calls at the end of the sequence have each timed out with
no intervening success. -/
theorem shouldDisconnect_tolerance_consecutive (t tol : Int) (qid g : String)
    (l : List Bool) (htol : 1 ≤ tol) :
    (Client.new t tol qid g).shouldDisconnect = false ∧
    (((Client.new t tol qid g).writeSeq l).write true).1.shouldDisconnect = false ∧
    (((Client.new t tol qid g).writeSeq l).shouldDisconnect = true ↔
      tol ≤ consecFailures l) := by
  refine ⟨?_, ?_, ?_⟩
  · simp only [Client.shouldDisconnect, Client.new, decide_eq_false_iff_not, not_le]
    omega
  · have ht : ((Client.new t tol qid g).writeSeq l).tolerance = tol :=
      writeSeq_tolerance (Client.new t tol qid g) l
    simp only [Client.shouldDisconnect, Client.write, if_true, ht,
      decide_eq_false_iff_not, not_le]
    omega
  · simp only [Client.shouldDisconnect, decide_eq_true_eq]
    rw [writeSeq_failures_fresh, writeSeq_tolerance]
    simp [Client.new]

/-- Claim C4 witness: a concrete instance of the amended theorem at
tolerance 2 after two consecutive timed-out writes. -/
theorem shouldDisconnect_tolerance_consecutive_witness :
    (Client.new 5 2 "a" "g").shouldDisconnect = false ∧
    (((Client.new 5 2 "a" "g").writeSeq [false, false]).write true).1.shouldDisconnect = false ∧
    (((Client.new 5 2 "a" "g").writeSeq [false, false]).shouldDisconnect = true ↔
      2 ≤ consecFailures [false, false]) :=
  shouldDisconnect_tolerance_consecutive 5 2 "a" "g" [false, false] (by decide)

/-- Claim C8: the main loop of `ClientHandler` writes, for each payload
received from the queue, exactly one frame of the literal form
`data: <payload>` followed by two newlines, and flushes immediately
after each frame; a liveness tick writes nothing. -/
theorem handler_writes_one_frame_per_payload (events : List LoopEvent) :
    handlerLoopTrace events
      = (payloadsOf events).flatMap
          (fun d => [Transport.write ("data: " ++ d ++ "\n\n"), Transport.flush]) := by
  induction events with
  | nil => rfl
  | cons e rest ih => cases e <;> simp [handlerLoopTrace, payloadsOf, frame, ih]

/-- Claim C9: `EventHandler` dispatches to `Broadcast` when the `id`
query parameter is absent or supplied empty (both read back as the
empty string), and only a non-empty identifier selects `BroadcastTo`. -/
theorem eventHandler_empty_id_broadcasts :
    eventHandlerDispatch none = Dispatch.broadcast ∧
    eventHandlerDispatch (some "") = Dispatch.broadcast ∧
    ∀ id, id ≠ "" → eventHandlerDispatch (some id) = Dispatch.broadcastTo id := by
  refine ⟨by decide, by decide, ?_⟩
  intro id h
  simp [eventHandlerDispatch, queryGet, h]

/-- Claim C9 witness: a concrete non-empty identifier selects unicast. -/
theorem eventHandler_empty_id_broadcasts_witness :
    eventHandlerDispatch (some "1234") = Dispatch.broadcastTo "1234" :=
  eventHandler_empty_id_broadcasts.2.2 "1234" (by decide)

/-- Claim C3 (code bug): invoked with a response writer that lacks
`http.Flusher` but implements `http.CloseNotifier`, `ClientHandler`
does not fail with the streaming-unsupported error: the `ok` of the
Flusher assertion is shadowed by the CloseNotifier assertion, so the
handler proceeds to create and register a Connection. -/
theorem clientHandler_missing_flusher_registers :
    clientHandlerStart [] { flusher := false, closeNotifier := true } 5 3 "a" "g"
      = HandlerStart.started "a" [("a", RegValue.conn (Client.new 5 3 "a" "g"))] := by
  decide

theorem broadcastGo_no_malformed (deliver : String → Bool) :
    ∀ (entries : List (String × RegValue)) (m : Registry) (out : List String),
      (∀ p ∈ entries, p.2 ≠ RegValue.malformed) →
      ∃ m', broadcastGo deliver entries m out
              = BroadcastOutcome.done m' (joinErrors (out ++ failMsgs deliver entries)) := by
  intro entries
  induction entries with
  | nil =>
      intro m out _
      exact ⟨m, by simp [broadcastGo, failMsgs]⟩
  | cons p rest ih =>
      intro m out hwf
      obtain ⟨k, v⟩ := p
      have hv := hwf (k, v) (List.mem_cons_self _ _)
      match v, hv with
      | RegValue.malformed, hv => exact absurd rfl hv
      | RegValue.conn c, _ =>
          cases hd : deliver k
          · obtain ⟨m', hm'⟩ :=
              ih (if (Client.shouldDisconnect { c with failures := c.failures + 1 }) = true then
                    delete (store m k (RegValue.conn { c with failures := c.failures + 1 })) c.id
                  else store m k (RegValue.conn { c with failures := c.failures + 1 }))
                (out ++ [writeTimeoutMsg c.id])
                (fun q hq => hwf q (List.mem_cons_of_mem _ hq))
            refine ⟨m', ?_⟩
            simp only [broadcastGo, Client.write, hd, Bool.false_eq_true, if_false,
              failMsgs]
            rw [hm']
            simp
          · obtain ⟨m', hm'⟩ :=
              ih (store m k (RegValue.conn { c with failures := 0 })) out
                (fun q hq => hwf q (List.mem_cons_of_mem _ hq))
            refine ⟨m', ?_⟩
            simp only [broadcastGo, Client.write, hd, if_true, failMsgs]
            exact hm'

/-- Claim C1 counterexample: the claim quantifies over every registry
state, but on a state holding one malformed entry `Broadcast` returns
no aggregate error at all — the `Range` callback panics on the nil
result of the failed type assertion, so the call never reaches the
error-joining code. -/
theorem broadcast_no_aggregate_on_malformed :
    broadcast [("y", RegValue.malformed)] (fun _ => false)
      = BroadcastOutcome.panic [malformedBroadcastMsg "y"] [] := by
  decide

/-- Claim C1 (amended): over a registry whose entries are all genuine connections,
`Broadcast` attempts the write for every registered connection, in
iteration order and without stopping at a failure; it returns nil when
no write fails, and otherwise a single error joining every individual
failure message with newlines, in iteration order. -/
theorem broadcast_attempts_all_and_aggregates (m : Registry)
    (deliver : String → Bool)
    (hwf : ∀ p ∈ m, p.2 ≠ RegValue.malformed) :
    ∃ m', broadcast m deliver
      = BroadcastOutcome.done m' (joinErrors (failMsgs deliver m)) := by
  obtain ⟨m', h⟩ := broadcastGo_no_malformed deliver m m [] hwf
  exact ⟨m', by simpa using h⟩

/-- Claim C1 witness: a two-client registry where the write to `"a"`
succeeds and the write to `"b"` times out. -/
theorem broadcast_attempts_all_and_aggregates_witness :
    ∃ m', broadcast [("a", RegValue.conn (Client.new 5 3 "a" "g")),
                     ("b", RegValue.conn (Client.new 5 3 "b" "g"))]
            (fun k => k == "a")
      = BroadcastOutcome.done m'
          (joinErrors (failMsgs (fun k => k == "a")
            [("a", RegValue.conn (Client.new 5 3 "a" "g")),
             ("b", RegValue.conn (Client.new 5 3 "b" "g"))])) :=
  broadcast_attempts_all_and_aggregates _ _ (by decide)

theorem keys_store_of_load (m : Registry) (k : String) (v v0 : RegValue)
    (h : load m k = some v0) : keys (store m k v) = keys m := by
  induction m with
  | nil => simp [load] at h
  | cons p rest ih =>
      by_cases hp : p.1 = k
      · simp [store, keys, hp]
      · rw [load, if_neg hp] at h
        simp only [store, keys, hp, if_false, List.map_cons]
        rw [show List.map (fun p => p.1) (store rest k v) = keys (store rest k v) from rfl,
          ih h, keys]

/-- Claim C6: `BroadcastTo` on an identifier absent from the registry
returns the unknown-client error and leaves the registry untouched; on
an identifier mapping to a genuine connection it returns exactly
`Client.Write`'s result and never evicts (the key set is unchanged),
whatever the write outcome. -/
theorem broadcastTo_missing_or_present (m : Registry) (id : String) (d : Bool) :
    (load m id = none → broadcastTo m id d = (m, some (unknownClientMsg id))) ∧
    (∀ c, load m id = some (RegValue.conn c) →
      (broadcastTo m id d).2 = (c.write d).2 ∧
      keys (broadcastTo m id d).1 = keys m) := by
  constructor
  · intro h; simp [broadcastTo, h]
  · intro c h
    refine ⟨by simp [broadcastTo, h], ?_⟩
    simp only [broadcastTo, h]
    exact keys_store_of_load m id _ _ h

/-- Claim C6 witness: a missing identifier, and a present identifier
whose failed write pushes the connection past tolerance 1 without
eviction. -/
theorem broadcastTo_missing_or_present_witness :
    broadcastTo [("a", RegValue.conn (Client.new 5 1 "a" "g"))] "b" true
      = ([("a", RegValue.conn (Client.new 5 1 "a" "g"))], some (unknownClientMsg "b")) ∧
    ((broadcastTo [("a", RegValue.conn (Client.new 5 1 "a" "g"))] "a" false).2
        = ((Client.new 5 1 "a" "g").write false).2 ∧
      keys (broadcastTo [("a", RegValue.conn (Client.new 5 1 "a" "g"))] "a" false).1
        = keys [("a", RegValue.conn (Client.new 5 1 "a" "g"))]) :=
  ⟨(broadcastTo_missing_or_present _ "b" true).1 (by decide),
   (broadcastTo_missing_or_present _ "a" false).2 (Client.new 5 1 "a" "g") (by decide)⟩

/-- Claim C7: when `ClientHandler` is invoked (on a capable transport)
with a non-empty identifier already present in the registry, it fails
with the duplicate-client error and performs no registration: the
registry — and with it the previously registered connection — is left
exactly as it was. -/
theorem clientHandler_rejects_duplicate (m : Registry) (caps : Capabilities)
    (t tol : Int) (qid g : String)
    (hcn : caps.closeNotifier = true) (hqid : qid ≠ "")
    (hdup : hasClient m qid = true) :
    clientHandlerStart m caps t tol qid g
      = HandlerStart.errored (duplicateClientMsg qid) m := by
  simp [clientHandlerStart, hcn, Client.new, hqid, hdup]

/-- Claim C7 witness: a second connection attempt for identifier
`"a"`. -/
theorem clientHandler_rejects_duplicate_witness :
    clientHandlerStart [("a", RegValue.conn (Client.new 5 3 "a" "g"))]
        { flusher := true, closeNotifier := true } 5 3 "a" "g2"
      = HandlerStart.errored (duplicateClientMsg "a")
          [("a", RegValue.conn (Client.new 5 3 "a" "g"))] :=
  clientHandler_rejects_duplicate _ _ 5 3 "a" "g2" (by decide) (by decide) (by decide)

/-- Claim C2 (code bug): on a malformed registry entry, `Broadcast`
records the failure and evicts the entry, but the `Range` callback then
falls through and calls `Write` on the nil result of the failed type
assertion: the call panics instead of continuing with the remaining
entries (here the entry for `"b"` is never attempted). -/
theorem broadcast_panics_on_malformed_entry :
    broadcast [("x", RegValue.malformed), ("b", RegValue.conn (Client.new 5 3 "b" "g"))]
        (fun _ => true)
      = BroadcastOutcome.panic [malformedBroadcastMsg "x"]
          [("b", RegValue.conn (Client.new 5 3 "b" "g"))] := by
  decide

theorem goodReg_store (m : Registry) (k : String) (v : RegValue)
    (hv : goodPair (k, v)) :
    goodReg m → goodReg (store m k v) := by
  induction m with
  | nil =>
      intro _ p hp
      simp only [store, List.mem_singleton] at hp
      subst hp
      exact hv
  | cons q rest ih =>
      intro hm p hp
      rw [store] at hp
      by_cases hq : q.1 = k
      · rw [if_pos hq] at hp
        rcases List.mem_cons.mp hp with rfl | h
        · exact hv
        · exact hm p (List.mem_cons_of_mem _ h)
      · rw [if_neg hq] at hp
        rcases List.mem_cons.mp hp with rfl | h
        · exact hm p (List.mem_cons_self _ _)
        · exact ih (fun r hr => hm r (List.mem_cons_of_mem _ hr)) p h

theorem goodReg_delete (m : Registry) (k : String) :
    goodReg m → goodReg (delete m k) := by
  induction m with
  | nil => intro hm; exact hm
  | cons q rest ih =>
      intro hm
      rw [delete]
      by_cases hq : q.1 = k
      · rw [if_pos hq]
        exact ih (fun r hr => hm r (List.mem_cons_of_mem _ hr))
      · rw [if_neg hq]
        intro p hp
        rcases List.mem_cons.mp hp with rfl | h
        · exact hm p (List.mem_cons_self _ _)
        · exact ih (fun r hr => hm r (List.mem_cons_of_mem _ hr)) p h

theorem load_good (m : Registry) (id : String) (hm : goodReg m) :
    ∀ v, load m id = some v → goodPair (id, v) := by
  induction m with
  | nil => intro v h; simp [load] at h
  | cons q rest ih =>
      intro v h
      rw [load] at h
      by_cases hq : q.1 = id
      · rw [if_pos hq] at h
        injection h with h
        obtain ⟨c, hc1, hc2⟩ := hm q (List.mem_cons_self _ _)
        exact ⟨c, by rw [← h]; exact hc1, by rw [← hq]; exact hc2⟩
      · rw [if_neg hq] at h
        exact ih (fun r hr => hm r (List.mem_cons_of_mem _ hr)) v h

theorem broadcastGo_good (deliver : String → Bool) :
    ∀ (entries : List (String × RegValue)) (m : Registry) (out : List String),
      (∀ p ∈ entries, goodPair p) → goodReg m →
      goodReg (outReg (broadcastGo deliver entries m out)) := by
  intro entries
  induction entries with
  | nil => intro m out _ hm; exact hm
  | cons p rest ih =>
      intro m out hent hm
      obtain ⟨k, v⟩ := p
      obtain ⟨c, hc, hk⟩ := hent (k, v) (List.mem_cons_self _ _)
      simp only at hc hk
      subst hc
      cases hd : deliver k
      · simp only [broadcastGo, Client.write, hd, Bool.false_eq_true, if_false]
        refine ih _ _ (fun q hq => hent q (List.mem_cons_of_mem _ hq)) ?_
        by_cases hsd :
            (Client.shouldDisconnect { c with failures := c.failures + 1 }) = true
        · rw [if_pos hsd]
          exact goodReg_delete _ _
            (goodReg_store m k _ ⟨{ c with failures := c.failures + 1 }, rfl, hk⟩ hm)
        · rw [if_neg hsd]
          exact goodReg_store m k _ ⟨{ c with failures := c.failures + 1 }, rfl, hk⟩ hm
      · simp only [broadcastGo, Client.write, hd, if_true]
        exact ih _ _ (fun q hq => hent q (List.mem_cons_of_mem _ hq))
          (goodReg_store m k _ ⟨{ c with failures := 0 }, rfl, hk⟩ hm)

theorem applyOp_good (m : Registry) (op : Op) (hm : goodReg m) :
    goodReg (applyOp m op) := by
  cases op with
  | connect caps t tol qid g =>
      rw [applyOp, clientHandlerStart]
      by_cases hcn : (!caps.closeNotifier) = true
      · rw [if_pos hcn]; exact hm
      · rw [if_neg hcn]
        by_cases hdup : hasClient m (Client.new t tol qid g).id = true
        · rw [if_pos hdup]; exact hm
        · rw [if_neg hdup]
          exact goodReg_store m _ _ ⟨Client.new t tol qid g, rfl, rfl⟩ hm
  | disconnect id => exact goodReg_delete m id hm
  | bcast deliver =>
      rw [applyOp, broadcast]
      exact broadcastGo_good deliver m m [] hm hm
  | bcastTo id d =>
      rw [applyOp]
      cases hl : load m id with
      | none => simp only [broadcastTo, hl]; exact hm
      | some v =>
          cases v with
          | malformed =>
              simp only [broadcastTo, hl]
              exact goodReg_delete m id hm
          | conn c =>
              simp only [broadcastTo, hl]
              obtain ⟨c0, hc0, hid⟩ := load_good m id hm _ hl
              simp only at hc0 hid
              injection hc0 with hc0
              rw [← hc0] at hid
              exact goodReg_store m id _
                ⟨(c.write d).1, rfl, by rw [write_fst_id]; exact hid⟩ hm

theorem reach_good (ops : List Op) : goodReg (reach ops) := by
  rw [reach]
  have h : ∀ (m : Registry), goodReg m → goodReg (ops.foldl applyOp m) := by
    induction ops with
    | nil => intro m hm; exact hm
    | cons op rest ih =>
        intro m hm
        exact ih (applyOp m op) (applyOp_good m op hm)
  exact h [] (fun p hp => absurd hp (List.not_mem_nil p))

/-- Claim C10: in every registry state reachable through the broker's
operations, each entry stores a genuine connection under that
connection's own identifier; consequently the eviction by
`client.ID()` performed during `Broadcast` deletes exactly the key
being iterated. -/
theorem reachable_registry_keys_are_ids (ops : List Op) (p : String × RegValue)
    (hp : p ∈ reach ops) :
    ∃ c, p.2 = RegValue.conn c ∧ p.1 = c.id ∧
      delete (reach ops) c.id = delete (reach ops) p.1 := by
  obtain ⟨c, hc, hk⟩ := reach_good ops p hp
  exact ⟨c, hc, hk, by rw [hk]⟩

/-- Claim C10 witness: the state reached by one successful connect. -/
theorem reachable_registry_keys_are_ids_witness :
    ∃ c, ("a", RegValue.conn (Client.new 5 3 "a" "g")).2 = RegValue.conn c ∧
      ("a", RegValue.conn (Client.new 5 3 "a" "g")).1 = c.id ∧
      delete (reach [Op.connect { flusher := true, closeNotifier := true } 5 3 "a" "g"]) c.id
        = delete (reach [Op.connect { flusher := true, closeNotifier := true } 5 3 "a" "g"])
            ("a", RegValue.conn (Client.new 5 3 "a" "g")).1 :=
  reachable_registry_keys_are_ids _ _ (by decide)

end SSE
